import Mathlib

/-!
Verification of `arcade/experimental/defender.py` (a Defender-clone demo).

The Python module is shallowly embedded below.  Positions, velocities and
distances are modelled as rationals `ℚ` (the Python code uses floats, but all
claims under study are about exact arithmetic relations that hold in ℚ);
`random.randrange(-2, 3)` outcomes are passed in explicitly as a stream of
integer pairs; the sprite lists are Lean lists; Python's `int()` truncation
toward zero is `pyInt`.  Iteration of the collision loop over the *live*
bullet list (which grows while it is being iterated) is modelled with an
explicit work queue and a fuel parameter: a `some` result is exactly a run of
the Python loop that terminates within `fuel` iterations.
-/

/-! Module-level constants, defender.py lines 24-52. -/

def SCREEN_WIDTH : ℚ := 1280

def SCREEN_HEIGHT : ℚ := 720

def PLAYING_FIELD_WIDTH : ℚ := 5000

def PLAYING_FIELD_HEIGHT : ℚ := 800

def MINIMAP_HEIGHT : ℚ := SCREEN_HEIGHT / 4

def MAIN_SCREEN_HEIGHT : ℚ := SCREEN_HEIGHT - MINIMAP_HEIGHT

def VIEWPORT_MARGIN : ℚ := SCREEN_WIDTH / 2 - 50

def TOP_VIEWPORT_MARGIN : ℚ := 30

def DEFAULT_BOTTOM_VIEWPORT : ℚ := -10

def MAX_HORIZONTAL_MOVEMENT_SPEED : ℚ := 10

def MAX_VERTICAL_MOVEMENT_SPEED : ℚ := 5

def HORIZONTAL_ACCELERATION : ℚ := 0.5

def VERTICAL_ACCELERATION : ℚ := 0.2

def MOVEMENT_DRAG : ℚ := 0.08

def BULLET_MAX_DISTANCE : ℚ := SCREEN_WIDTH * 0.75

/-- `Player` is `SpriteSolidColor(40, 10, ...)` (line 58): width 40. -/
def PLAYER_WIDTH : ℚ := 40

/-- `Player` is `SpriteSolidColor(40, 10, ...)` (line 58): height 10. -/
def PLAYER_HEIGHT : ℚ := 10

/-- The player sprite state: position, velocity and facing flag
(class `Player`, lines 54-59). -/
structure PlayerS where
  center_x : ℚ
  center_y : ℚ
  change_x : ℚ
  change_y : ℚ
  face_right : Bool

/-- `Player.accelerate_up`, lines 61-65. -/
def accelerate_up (p : PlayerS) : PlayerS :=
  let cy := p.change_y + VERTICAL_ACCELERATION
  { p with change_y := if cy > MAX_VERTICAL_MOVEMENT_SPEED then MAX_VERTICAL_MOVEMENT_SPEED else cy }

/-- `Player.accelerate_down`, lines 67-71. -/
def accelerate_down (p : PlayerS) : PlayerS :=
  let cy := p.change_y - VERTICAL_ACCELERATION
  { p with change_y := if cy < -MAX_VERTICAL_MOVEMENT_SPEED then -MAX_VERTICAL_MOVEMENT_SPEED else cy }

/-- `Player.accelerate_right`, lines 73-78 (also sets the facing flag). -/
def accelerate_right (p : PlayerS) : PlayerS :=
  let cx := p.change_x + HORIZONTAL_ACCELERATION
  { p with face_right := true,
           change_x := if cx > MAX_HORIZONTAL_MOVEMENT_SPEED then MAX_HORIZONTAL_MOVEMENT_SPEED else cx }

/-- `Player.accelerate_left`, lines 80-85 (also clears the facing flag). -/
def accelerate_left (p : PlayerS) : PlayerS :=
  let cx := p.change_x - HORIZONTAL_ACCELERATION
  { p with face_right := false,
           change_x := if cx < -MAX_HORIZONTAL_MOVEMENT_SPEED then -MAX_HORIZONTAL_MOVEMENT_SPEED else cx }

/-- The drag block of `Player.update` for one velocity component,
lines 93-99 (x) and 101-106 (y): three sequential `if` statements. -/
def applyDrag (v : ℚ) : ℚ :=
  let v1 := if v > 0 then v - MOVEMENT_DRAG else v
  let v2 := if v1 < 0 then v1 + MOVEMENT_DRAG else v1
  if |v2| < MOVEMENT_DRAG then 0 else v2

/-- `Player.update`, lines 87-117: move by the velocity, apply drag, then
clamp the position to the playing field horizontally (lines 108-112: setting
`self.left`/`self.right` moves `center_x` by half the sprite width) and to the
screen height vertically (lines 114-117). -/
def Player.update (p : PlayerS) : PlayerS :=
  let cx := p.center_x + p.change_x
  let cy := p.center_y + p.change_y
  let vx := applyDrag p.change_x
  let vy := applyDrag p.change_y
  let cx2 := if cx - PLAYER_WIDTH / 2 < 0 then PLAYER_WIDTH / 2
             else if cx + PLAYER_WIDTH / 2 > PLAYING_FIELD_WIDTH - 1 then
               PLAYING_FIELD_WIDTH - 1 - PLAYER_WIDTH / 2
             else cx
  let cy2 := if cy - PLAYER_HEIGHT / 2 < 0 then PLAYER_HEIGHT / 2
             else if cy + PLAYER_HEIGHT / 2 > SCREEN_HEIGHT - 1 then
               SCREEN_HEIGHT - 1 - PLAYER_HEIGHT / 2
             else cy
  { p with center_x := cx2, center_y := cy2, change_x := vx, change_y := vy }

/-- `sprite.left` for the player (arcade property: center minus half width). -/
def PlayerS.left (p : PlayerS) : ℚ := p.center_x - PLAYER_WIDTH / 2

/-- `sprite.right` for the player. -/
def PlayerS.right (p : PlayerS) : ℚ := p.center_x + PLAYER_WIDTH / 2

/-- `sprite.bottom` for the player. -/
def PlayerS.bottom (p : PlayerS) : ℚ := p.center_y - PLAYER_HEIGHT / 2

/-- `sprite.top` for the player. -/
def PlayerS.top (p : PlayerS) : ℚ := p.center_y + PLAYER_HEIGHT / 2

/-- The four key latches (`MyGame.__init__`, lines 173-176). -/
structure Latch where
  up_pressed : Bool
  down_pressed : Bool
  left_pressed : Bool
  right_pressed : Bool

/-- The player part of `MyGame.on_update`, lines 314-326: acceleration chosen
from the key latches, then `Player.update`. -/
def playerFrameStep (l : Latch) (p : PlayerS) : PlayerS :=
  let p1 :=
    if l.up_pressed && !l.down_pressed then accelerate_up p
    else if l.down_pressed && !l.up_pressed then accelerate_down p
    else p
  let p2 :=
    if l.left_pressed && !l.right_pressed then accelerate_left p1
    else if l.right_pressed && !l.left_pressed then accelerate_right p1
    else p1
  Player.update p2

/-- State of a `Bullet` instance (class `Bullet`, lines 119-124):
position, velocity and the accumulated `distance` (0 on construction). -/
structure BulletS where
  center_x : ℚ
  center_y : ℚ
  change_x : ℚ
  change_y : ℚ
  distance : ℚ

/-- `Bullet.update`, lines 126-133: move, accumulate `change_x` into
`distance`, and flag removal when `distance > BULLET_MAX_DISTANCE`.
The boolean is `true` iff `remove_from_sprite_lists` is called. -/
def Bullet.update (b : BulletS) : BulletS × Bool :=
  let b' : BulletS :=
    { b with center_x := b.center_x + b.change_x,
             center_y := b.center_y + b.change_y,
             distance := b.distance + b.change_x }
  (b', decide (b'.distance > BULLET_MAX_DISTANCE))

/-- `n` consecutive `Bullet.update` steps (ignoring the removal flag, which
claims inspect separately at each step). -/
def bulletTicks (b : BulletS) : Nat → BulletS
  | 0 => b
  | n + 1 => (Bullet.update (bulletTicks b n)).1

/-- State of a `Particle` (class `Particle`, lines 135-136): position,
velocity and the `alpha` fade value (arcade sprites start at alpha 255). -/
structure ParticleS where
  center_x : ℚ
  center_y : ℚ
  change_x : ℚ
  change_y : ℚ
  alpha : Int

/-- `Particle.update`, lines 137-145: move, fade by 5, and flag removal when
`alpha <= 0`.  The boolean is `true` iff `remove_from_sprite_lists` is
called. -/
def Particle.update (pt : ParticleS) : ParticleS × Bool :=
  let pt' : ParticleS :=
    { pt with center_x := pt.center_x + pt.change_x,
              center_y := pt.center_y + pt.change_y,
              alpha := pt.alpha - 5 }
  (pt', decide (pt'.alpha ≤ 0))

/-- `n` consecutive `Particle.update` steps. -/
def particleTicks (pt : ParticleS) : Nat → ParticleS
  | 0 => pt
  | n + 1 => (Particle.update (particleTicks pt n)).1

/-- A generic solid-color sprite as it matters to the collision loop:
axis-aligned box given by center and size, plus a velocity. -/
structure Sp where
  center_x : ℚ
  center_y : ℚ
  width : ℚ
  height : ℚ
  change_x : ℚ
  change_y : ℚ
deriving DecidableEq

/-- Axis-aligned bounding-box overlap, the effect of
`arcade.check_for_collision` on unrotated solid-color sprites. -/
def collide (a b : Sp) : Bool :=
  decide (a.center_x - a.width / 2 < b.center_x + b.width / 2 ∧
          b.center_x - b.width / 2 < a.center_x + a.width / 2 ∧
          a.center_y - a.height / 2 < b.center_y + b.height / 2 ∧
          b.center_y - b.height / 2 < a.center_y + a.height / 2)

/-- The SPACE branch of `MyGame.on_key_press`, lines 372-381: the fired
bullet is a 35x3 `SpriteSolidColor` at the player's position with horizontal
velocity `max(12, abs(player.change_x) + 10)`, negated when the player does
not face right. -/
def fireBullet (p : PlayerS) : Sp :=
  let m := max 12 (|p.change_x| + 10)
  { center_x := p.center_x, center_y := p.center_y, width := 35, height := 3,
    change_x := if !p.face_right then -m else m, change_y := 0 }

/-- Line 382: the new bullet is appended to `bullet_sprite_list`. -/
def on_key_press_space (p : PlayerS) (bullets : List Sp) : List Sp :=
  bullets ++ [fireBullet p]

/-- The `while particle.change_y == 0 and particle.change_x == 0` loop of
`MyGame.on_update`, lines 335-340, for one particle.  `cy`/`cx` are the
particle's current velocity (a fresh `Particle(4, 4, RED)` has velocity
`(0, 0)`), `count` the number of times the loop body has run so far, and each
loop body consumes one `(change_y, change_x)` pair from the random stream.
NOTE (faithful to the source): the body also sets the particle's position and
appends it to `bullet_sprite_list`, so the particle is appended once per
body iteration.  Returns the particle's final state, the number of appends,
and the rest of the stream; `none` when the stream ran out. -/
def spawnLoop (ex ey : ℚ) : Int → Int → Nat → List (Int × Int) →
    Option (Sp × Nat × List (Int × Int))
  | cy, cx, count, rolls =>
    if cy = 0 ∧ cx = 0 then
      match rolls with
      | [] => none
      | (dy, dx) :: rest => spawnLoop ex ey dy dx (count + 1) rest
    else
      some ({ center_x := ex, center_y := ey, width := 4, height := 4,
              change_x := (cx : ℚ), change_y := (cy : ℚ) }, count, rolls)

/-- Spawning of one particle (lines 334-340): fresh particle with velocity
`(0, 0)`, then the re-roll loop. -/
def spawnOne (ex ey : ℚ) (rolls : List (Int × Int)) :
    Option (Sp × Nat × List (Int × Int)) :=
  spawnLoop ex ey 0 0 0 rolls

/-- The `for i in range(10)` burst (line 333): `n` particles spawned in
sequence at position `(ex, ey)`; the returned list is the sequence of entries
appended to `bullet_sprite_list` (one entry per loop-body run, all aliases of
the same particle, hence `List.replicate count`). -/
def spawnBurst (ex ey : ℚ) : Nat → List (Int × Int) →
    Option (List Sp × List (Int × Int))
  | 0, rolls => some ([], rolls)
  | n + 1, rolls =>
    match spawnOne ex ey rolls with
    | none => none
    | some (pt, count, rest) =>
      match spawnBurst ex ey n rest with
      | none => none
      | some (ps, rest2) => some (List.replicate count pt ++ ps, rest2)

/-- The `for enemy in enemy_hit_list` loop (lines 331-340): one burst of 10
per hit enemy, at the enemy's position, in hit-list order. -/
def spawnForHits : List Sp → List (Int × Int) →
    Option (List Sp × List (Int × Int))
  | [], rolls => some ([], rolls)
  | e :: es, rolls =>
    match spawnBurst e.center_x e.center_y 10 rolls with
    | none => none
    | some (ps, rest) =>
      match spawnForHits es rest with
      | none => none
      | some (qs, rest2) => some (ps ++ qs, rest2)

/-- The `for bullet in self.bullet_sprite_list` loop (lines 329-340).
Python iterates the live list by index while particles are appended to its
end, so the already-visited part is `done` and the still-to-visit part is
`pending`; appends go to the end of `pending`.  For each queue head the hit
list is computed against the current enemy list, the hit enemies are removed
(`remove_from_sprite_lists`), and the bursts are appended.  `fuel` bounds the
number of loop iterations; a `some` result is a completed run. -/
def collLoop (fuel : Nat) (done pending enemies : List Sp)
    (rolls : List (Int × Int)) : Option (List Sp × List Sp) :=
  match fuel with
  | 0 => none
  | fuel + 1 =>
    match pending with
    | [] => some (done, enemies)
    | b :: rest =>
      let hits := enemies.filter (fun e => collide b e)
      if hits.isEmpty then
        collLoop fuel (done ++ [b]) rest enemies rolls
      else
        match spawnForHits hits rolls with
        | none => none
        | some (ps, rolls2) =>
          collLoop fuel (done ++ [b]) (rest ++ ps)
            (enemies.filter (fun e => !collide b e)) rolls2

/-- The whole collision/spawn step of `MyGame.on_update` (lines 329-340),
starting from the full bullet list.  Returns the final bullet list (including
spawned particles) and the surviving enemy list. -/
def collisionStep (fuel : Nat) (bullets enemies : List Sp)
    (rolls : List (Int × Int)) : Option (List Sp × List Sp) :=
  collLoop fuel [] bullets enemies rolls

/-- Python `int()`: truncation toward zero. -/
def pyInt (q : ℚ) : Int := if 0 ≤ q then q.floor else -((-q).floor)

/-- Horizontal camera correction, `MyGame.on_update` lines 342-350: scroll
left, then scroll right against the boundary computed from the *updated*
offset.  Result is the new (untruncated) `view_left`. -/
def scrollLeftRight (view_left : ℚ) (p : PlayerS) : ℚ :=
  let left_boundary := view_left + VIEWPORT_MARGIN
  let vl1 := if p.left < left_boundary then view_left - (left_boundary - p.left)
             else view_left
  let right_boundary := vl1 + SCREEN_WIDTH - VIEWPORT_MARGIN
  if p.right > right_boundary then vl1 + (p.right - right_boundary) else vl1

/-- Vertical camera correction, lines 352-356: `view_bottom` is reset to the
default every frame, then pushed up by the overshoot of the player's top. -/
def scrollBottom (p : PlayerS) : ℚ :=
  let vb := DEFAULT_BOTTOM_VIEWPORT
  let top_boundary := vb + SCREEN_HEIGHT - TOP_VIEWPORT_MARGIN - MINIMAP_HEIGHT
  if p.top > top_boundary then vb + (p.top - top_boundary) else vb

/-- The full camera step, lines 342-359, including the final truncation of
both offsets to integers (lines 358-359). -/
def cameraStep (view_left : ℚ) (p : PlayerS) : Int × Int :=
  (pyInt (scrollLeftRight view_left p), pyInt (scrollBottom p))

/-- One call issued by `MyGame.on_draw` to the drawing backend.  Framebuffer,
sprite-list, texture and quad identities are numbered in order of their
introduction in the source. -/
inductive RCall where
  | start_render : RCall
  | fb_use : Nat → RCall
  | fb_clear : Nat → RCall
  | set_viewport : ℚ → ℚ → ℚ → ℚ → RCall
  | draw_list : Nat → RCall
  | draw_line : ℚ → ℚ → ℚ → ℚ → RCall
  | draw_rectangle_filled : ℚ → ℚ → ℚ → ℚ → RCall
  | draw_rectangle_outline : ℚ → ℚ → ℚ → ℚ → RCall
  | gl_disable_blend : RCall
  | gl_enable_blend : RCall
  | glow_render : RCall
  | texture_use : Nat → RCall
  | quad_render : Nat → RCall
deriving DecidableEq

/-- The mutable game state that `on_draw` could touch: the camera offsets
(the sprite lists are only read through draw calls). -/
structure GameView where
  view_left : ℚ
  view_bottom : ℚ

/-- The ordered per-frame render sequence of `MyGame.on_draw`, lines 234-305:
minimap pass, glow-source pass, main composite, minimap overlay and the
viewport indicator rectangle.  Framebuffers: 0 = minimap_screen,
1 = play_screen, 2 = the window.  Sprite lists: 0 = enemies, 1 = players,
2 = stars, 3 = bullets.  Quads: 0 = mini_map_quad. -/
def renderSeq (vl vb : ℚ) : List RCall :=
  [RCall.start_render,
   RCall.fb_use 0,
   RCall.fb_clear 0,
   RCall.set_viewport 0 PLAYING_FIELD_WIDTH 0 SCREEN_HEIGHT,
   RCall.draw_list 0,
   RCall.draw_list 1,
   RCall.fb_use 1,
   RCall.fb_clear 1,
   RCall.set_viewport vl (SCREEN_WIDTH + vl) vb (SCREEN_HEIGHT + vb),
   RCall.draw_list 2,
   RCall.draw_list 3,
   RCall.draw_line 0 0 PLAYING_FIELD_WIDTH 0,
   RCall.fb_use 2,
   RCall.set_viewport vl (SCREEN_WIDTH + vl) vb (SCREEN_HEIGHT + vb),
   RCall.gl_disable_blend,
   RCall.glow_render,
   RCall.gl_enable_blend,
   RCall.draw_list 0,
   RCall.draw_list 1,
   RCall.draw_line 0 0 PLAYING_FIELD_WIDTH 0,
   RCall.draw_rectangle_filled (SCREEN_WIDTH - SCREEN_WIDTH / 2 + vl)
     (SCREEN_HEIGHT - SCREEN_HEIGHT / 8 + vb) SCREEN_WIDTH (SCREEN_HEIGHT / 4),
   RCall.texture_use 0,
   RCall.quad_render 0,
   RCall.draw_rectangle_outline
     ((vl + SCREEN_WIDTH / 2) * (SCREEN_WIDTH / PLAYING_FIELD_WIDTH) + vl)
     (vb + (MINIMAP_HEIGHT / PLAYING_FIELD_HEIGHT) * MAIN_SCREEN_HEIGHT / 2 +
       (SCREEN_HEIGHT - MINIMAP_HEIGHT) + vb * (MINIMAP_HEIGHT / PLAYING_FIELD_HEIGHT))
     ((SCREEN_WIDTH / PLAYING_FIELD_WIDTH) * SCREEN_WIDTH)
     ((MINIMAP_HEIGHT / PLAYING_FIELD_HEIGHT) * MAIN_SCREEN_HEIGHT)]

/-- Run backend calls in order; the first raised exception aborts the rest of
the sequence and propagates. -/
def runCalls {E : Type} (backend : RCall → Except E Unit) :
    List RCall → Except E Unit
  | [] => Except.ok ()
  | c :: cs =>
    match backend c with
    | Except.error e => Except.error e
    | Except.ok _ => runCalls backend cs

/-- The first exception a backend raises on a call sequence, if any. -/
def firstErr {E : Type} (backend : RCall → Except E Unit) :
    List RCall → Option E
  | [] => none
  | c :: cs =>
    match backend c with
    | Except.error e => some e
    | Except.ok _ => firstErr backend cs

/-- `MyGame.on_draw`, lines 230-309: the whole render sequence runs inside
one `try`; `except Exception` catches anything it raises, logs it (the
returned `Option E`) and returns normally with the game state untouched. -/
def on_draw {E : Type} (g : GameView) (backend : RCall → Except E Unit) :
    GameView × Option E :=
  match runCalls backend (renderSeq g.view_left g.view_bottom) with
  | Except.error e => (g, some e)
  | Except.ok _ => (g, none)

/-! Helper lemmas. -/

theorem bulletTicks_change_x (b : BulletS) (n : Nat) :
    (bulletTicks b n).change_x = b.change_x := by
  induction n with
  | zero => rfl
  | succ n ih => simp only [bulletTicks, Bullet.update, ih]

theorem bulletTicks_distance (b : BulletS) (n : Nat) :
    (bulletTicks b n).distance = b.distance + n * b.change_x := by
  induction n with
  | zero => simp [bulletTicks]
  | succ n ih =>
    simp only [bulletTicks, Bullet.update, ih, bulletTicks_change_x]
    push_cast
    ring

theorem particleTicks_alpha (pt : ParticleS) (n : Nat) :
    (particleTicks pt n).alpha = pt.alpha - 5 * n := by
  induction n with
  | zero => simp [particleTicks]
  | succ n ih =>
    simp only [particleTicks, Particle.update, ih]
    push_cast
    ring

/-- Claim C4: a bullet created with accumulated distance 0 has, after `n`
update steps, distance `n * change_x`; the `n+1`-st update step removes it
exactly when the accumulated travel `(n+1) * change_x` strictly exceeds
`BULLET_MAX_DISTANCE`, and in particular does not remove it when the
accumulated travel equals the threshold. -/
theorem claim_C4 (cx cy vx vy : ℚ) (n : Nat) :
    (bulletTicks ⟨cx, cy, vx, vy, 0⟩ n).distance = n * vx ∧
    ((Bullet.update (bulletTicks ⟨cx, cy, vx, vy, 0⟩ n)).2 = true ↔
      (n + 1 : ℚ) * vx > BULLET_MAX_DISTANCE) ∧
    ((n + 1 : ℚ) * vx = BULLET_MAX_DISTANCE →
      (Bullet.update (bulletTicks ⟨cx, cy, vx, vy, 0⟩ n)).2 = false) := by
  have hd := bulletTicks_distance ⟨cx, cy, vx, vy, 0⟩ n
  have hc := bulletTicks_change_x ⟨cx, cy, vx, vy, 0⟩ n
  simp only at hd hc
  have hflag : (Bullet.update (bulletTicks ⟨cx, cy, vx, vy, 0⟩ n)).2 =
      decide ((n + 1 : ℚ) * vx > BULLET_MAX_DISTANCE) := by
    simp only [Bullet.update, hd, hc]
    rw [show (0 + (n : ℚ) * vx + vx) = ((n : ℚ) + 1) * vx from by ring]
  refine ⟨by rw [hd]; ring, ?_, ?_⟩
  · rw [hflag]
    simp
  · intro h
    rw [hflag]
    simp only [decide_eq_false_iff_not, not_lt]
    rw [h]

/-- Claim C4 witness: with horizontal velocity 96 the accumulated distance
after 9 steps is 864, and the 10th update (travel 960 = BULLET_MAX_DISTANCE
exactly) does not remove the bullet. -/
theorem claim_C4_witness :
    (bulletTicks ⟨0, 0, 96, 0, 0⟩ 9).distance = 9 * 96 ∧
    (Bullet.update (bulletTicks ⟨0, 0, 96, 0, 0⟩ 9)).2 = false :=
  ⟨by rw [(claim_C4 0 0 96 0 9).1]; norm_num,
   (claim_C4 0 0 96 0 9).2.2 (by norm_num [BULLET_MAX_DISTANCE, SCREEN_WIDTH])⟩

/-- Claim C5: a bullet fired while the player faces left has negative
horizontal velocity; run under the `Bullet.update` dynamics from distance 0,
its accumulated distance strictly decreases every tick and the removal
condition `distance > BULLET_MAX_DISTANCE` never fires. -/
theorem claim_C5 (p : PlayerS) (hface : p.face_right = false) (n : Nat) :
    (fireBullet p).change_x < 0 ∧
    (bulletTicks ⟨p.center_x, p.center_y, (fireBullet p).change_x, 0, 0⟩ (n + 1)).distance <
      (bulletTicks ⟨p.center_x, p.center_y, (fireBullet p).change_x, 0, 0⟩ n).distance ∧
    (Bullet.update (bulletTicks ⟨p.center_x, p.center_y, (fireBullet p).change_x, 0, 0⟩ n)).2
      = false := by
  have hm : (12 : ℚ) ≤ max 12 (|p.change_x| + 10) := le_max_left _ _
  have hneg : (fireBullet p).change_x < 0 := by
    simp only [fireBullet, hface, Bool.not_false, if_true]
    linarith
  set c := (fireBullet p).change_x with hc
  have hd1 := bulletTicks_distance ⟨p.center_x, p.center_y, c, 0, 0⟩ n
  have hd2 := bulletTicks_distance ⟨p.center_x, p.center_y, c, 0, 0⟩ (n + 1)
  have hcx := bulletTicks_change_x ⟨p.center_x, p.center_y, c, 0, 0⟩ n
  simp only at hd1 hd2 hcx
  have hmul : ((n : ℚ) + 1) * c ≤ 0 :=
    mul_nonpos_of_nonneg_of_nonpos (by positivity) hneg.le
  refine ⟨hneg, ?_, ?_⟩
  · rw [hd1, hd2]
    push_cast
    nlinarith
  · simp only [Bullet.update, hd1, hcx]
    rw [decide_eq_false_iff_not, not_lt]
    have hB : (0 : ℚ) ≤ BULLET_MAX_DISTANCE := by
      norm_num [BULLET_MAX_DISTANCE, SCREEN_WIDTH]
    nlinarith

/-- Claim C5 witness: a concrete left-facing player. -/
theorem claim_C5_witness :
    (⟨0, 0, 0, 0, false⟩ : PlayerS).face_right = false ∧
    ((fireBullet ⟨0, 0, 0, 0, false⟩).change_x < 0 ∧
      (bulletTicks ⟨0, 0, (fireBullet ⟨0, 0, 0, 0, false⟩).change_x, 0, 0⟩ 4).distance <
        (bulletTicks ⟨0, 0, (fireBullet ⟨0, 0, 0, 0, false⟩).change_x, 0, 0⟩ 3).distance ∧
      (Bullet.update (bulletTicks ⟨0, 0, (fireBullet ⟨0, 0, 0, 0, false⟩).change_x, 0, 0⟩ 3)).2
        = false) :=
  ⟨rfl, claim_C5 ⟨0, 0, 0, 0, false⟩ rfl 3⟩

/-- Claim C9: a particle's `alpha` is exactly its initial value minus `5 n`
after `n` updates, so each update strictly decreases it by the fixed step 5,
and the update flags removal exactly when the new fade value is `≤ 0` —
hence the particle is removed on the first tick its fade reaches `≤ 0`. -/
theorem claim_C9 (pt : ParticleS) (n : Nat) :
    (particleTicks pt n).alpha = pt.alpha - 5 * n ∧
    (particleTicks pt (n + 1)).alpha < (particleTicks pt n).alpha ∧
    ((Particle.update (particleTicks pt n)).2 = true ↔ pt.alpha - 5 * (n + 1) ≤ 0) := by
  have h1 := particleTicks_alpha pt n
  have h2 := particleTicks_alpha pt (n + 1)
  refine ⟨h1, ?_, ?_⟩
  · rw [h1, h2]
    push_cast
    omega
  · simp only [Particle.update, h1, decide_eq_true_eq]
    omega

/-- Claim C8: after the clamping at the end of `Player.update` the player's
box lies inside the playing-field rectangle. -/
theorem claim_C8 (p : PlayerS) :
    0 ≤ (Player.update p).left ∧
    (Player.update p).right ≤ PLAYING_FIELD_WIDTH ∧
    0 ≤ (Player.update p).bottom ∧
    (Player.update p).top ≤ PLAYING_FIELD_HEIGHT := by
  simp only [Player.update, PlayerS.left, PlayerS.right, PlayerS.bottom, PlayerS.top,
    PLAYER_WIDTH, PLAYER_HEIGHT, PLAYING_FIELD_WIDTH, PLAYING_FIELD_HEIGHT, SCREEN_HEIGHT]
  split_ifs with h1 h2 h3 h4 h5 h6 h7 h8 <;>
    refine ⟨by linarith, by linarith, by linarith, by linarith⟩

/-- `runCalls` propagates exactly the first error that `firstErr` finds. -/
theorem runCalls_firstErr {E : Type} (backend : RCall → Except E Unit)
    (cs : List RCall) :
    (match runCalls backend cs with
     | Except.error e => some e
     | Except.ok _ => none) = firstErr backend cs := by
  induction cs with
  | nil => rfl
  | cons c cs ih =>
    simp only [runCalls, firstErr]
    cases backend c with
    | error e => rfl
    | ok u => exact ih

/-- Claim C10: `on_draw` returns normally with the game state unchanged for
every behaviour of the drawing backend — the single catch-all around the
whole render sequence logs the first raised exception (if any) and drops the
frame; no exception escapes. -/
theorem claim_C10 (E : Type) (g : GameView) (backend : RCall → Except E Unit) :
    (on_draw g backend).1 = g ∧
    (on_draw g backend).2 = firstErr backend (renderSeq g.view_left g.view_bottom) := by
  unfold on_draw
  constructor
  · cases runCalls backend (renderSeq g.view_left g.view_bottom) <;> rfl
  · rw [← runCalls_firstErr]
    cases runCalls backend (renderSeq g.view_left g.view_bottom) <;> rfl

/-- Claim C6: pressing SPACE appends exactly one bullet, at the player's
position, with horizontal velocity `max(12, |change_x| + 10)` in the facing
direction; at speed 8 facing right this is 18. -/
theorem claim_C6 (p : PlayerS) (bullets : List Sp) :
    on_key_press_space p bullets = bullets ++ [fireBullet p] ∧
    (fireBullet p).center_x = p.center_x ∧
    (fireBullet p).center_y = p.center_y ∧
    (fireBullet p).change_x =
      (if p.face_right then max 12 (|p.change_x| + 10)
       else -(max 12 (|p.change_x| + 10))) ∧
    (|p.change_x| = 8 → p.face_right = true → (fireBullet p).change_x = 18) := by
  refine ⟨rfl, rfl, rfl, ?_, ?_⟩
  · simp only [fireBullet]
    cases p.face_right <;> simp
  · intro hv hf
    simp only [fireBullet, hf, hv, Bool.not_true, Bool.false_eq_true, if_false]
    rw [max_eq_right (by norm_num)]
    norm_num

/-- Claim C6 witness: a player moving right at speed 8 and facing right. -/
theorem claim_C6_witness :
    |(⟨0, 0, 8, 0, true⟩ : PlayerS).change_x| = 8 ∧
    (⟨0, 0, 8, 0, true⟩ : PlayerS).face_right = true ∧
    (fireBullet ⟨0, 0, 8, 0, true⟩).change_x = 18 :=
  ⟨by norm_num, rfl,
   (claim_C6 ⟨0, 0, 8, 0, true⟩ []).2.2.2.2 (by norm_num) rfl⟩

theorem accelerate_up_bounds (p : PlayerS)
    (h : |p.change_x| ≤ MAX_HORIZONTAL_MOVEMENT_SPEED ∧
         |p.change_y| ≤ MAX_VERTICAL_MOVEMENT_SPEED) :
    |(accelerate_up p).change_x| ≤ MAX_HORIZONTAL_MOVEMENT_SPEED ∧
    |(accelerate_up p).change_y| ≤ MAX_VERTICAL_MOVEMENT_SPEED := by
  obtain ⟨hx, hy⟩ := h
  refine ⟨hx, ?_⟩
  simp only [accelerate_up, VERTICAL_ACCELERATION, MAX_VERTICAL_MOVEMENT_SPEED] at *
  rw [abs_le] at hy ⊢
  split_ifs with h1 <;> constructor <;> linarith

theorem accelerate_down_bounds (p : PlayerS)
    (h : |p.change_x| ≤ MAX_HORIZONTAL_MOVEMENT_SPEED ∧
         |p.change_y| ≤ MAX_VERTICAL_MOVEMENT_SPEED) :
    |(accelerate_down p).change_x| ≤ MAX_HORIZONTAL_MOVEMENT_SPEED ∧
    |(accelerate_down p).change_y| ≤ MAX_VERTICAL_MOVEMENT_SPEED := by
  obtain ⟨hx, hy⟩ := h
  refine ⟨hx, ?_⟩
  simp only [accelerate_down, VERTICAL_ACCELERATION, MAX_VERTICAL_MOVEMENT_SPEED] at *
  rw [abs_le] at hy ⊢
  split_ifs with h1 <;> constructor <;> linarith

theorem accelerate_right_bounds (p : PlayerS)
    (h : |p.change_x| ≤ MAX_HORIZONTAL_MOVEMENT_SPEED ∧
         |p.change_y| ≤ MAX_VERTICAL_MOVEMENT_SPEED) :
    |(accelerate_right p).change_x| ≤ MAX_HORIZONTAL_MOVEMENT_SPEED ∧
    |(accelerate_right p).change_y| ≤ MAX_VERTICAL_MOVEMENT_SPEED := by
  obtain ⟨hx, hy⟩ := h
  refine ⟨?_, hy⟩
  simp only [accelerate_right, HORIZONTAL_ACCELERATION, MAX_HORIZONTAL_MOVEMENT_SPEED] at *
  rw [abs_le] at hx ⊢
  split_ifs with h1 <;> constructor <;> linarith

theorem accelerate_left_bounds (p : PlayerS)
    (h : |p.change_x| ≤ MAX_HORIZONTAL_MOVEMENT_SPEED ∧
         |p.change_y| ≤ MAX_VERTICAL_MOVEMENT_SPEED) :
    |(accelerate_left p).change_x| ≤ MAX_HORIZONTAL_MOVEMENT_SPEED ∧
    |(accelerate_left p).change_y| ≤ MAX_VERTICAL_MOVEMENT_SPEED := by
  obtain ⟨hx, hy⟩ := h
  refine ⟨?_, hy⟩
  simp only [accelerate_left, HORIZONTAL_ACCELERATION, MAX_HORIZONTAL_MOVEMENT_SPEED] at *
  rw [abs_le] at hx ⊢
  split_ifs with h1 <;> constructor <;> linarith

theorem applyDrag_bound (B v : ℚ) (hB : 0 ≤ B) (h : |v| ≤ B) : |applyDrag v| ≤ B := by
  rw [abs_le] at h
  obtain ⟨hl, hr⟩ := h
  simp only [applyDrag, MOVEMENT_DRAG]
  split_ifs with h1 h2 h3 h4 h5 h6 h7
  · simpa using hB
  · rw [not_lt, le_abs] at h3
    rw [abs_le]
    rcases h3 with h3 | h3 <;> constructor <;> linarith
  · simpa using hB
  · rw [not_lt, le_abs] at h4
    rw [abs_le]
    rcases h4 with h4 | h4 <;> constructor <;> linarith
  · simpa using hB
  · rw [not_lt, le_abs] at h6
    rw [abs_le]
    rcases h6 with h6 | h6 <;> constructor <;> linarith
  · simpa using hB
  · rw [not_lt, le_abs] at h7
    rw [abs_le]
    rcases h7 with h7 | h7 <;> constructor <;> linarith

theorem update_bounds (q : PlayerS)
    (h : |q.change_x| ≤ MAX_HORIZONTAL_MOVEMENT_SPEED ∧
         |q.change_y| ≤ MAX_VERTICAL_MOVEMENT_SPEED) :
    |(Player.update q).change_x| ≤ MAX_HORIZONTAL_MOVEMENT_SPEED ∧
    |(Player.update q).change_y| ≤ MAX_VERTICAL_MOVEMENT_SPEED := by
  obtain ⟨h1, h2⟩ := h
  constructor
  · exact applyDrag_bound _ _ (by norm_num [MAX_HORIZONTAL_MOVEMENT_SPEED]) h1
  · exact applyDrag_bound _ _ (by norm_num [MAX_VERTICAL_MOVEMENT_SPEED]) h2

/-- Claim C7: for every key-latch state, one frame of the player physics
(acceleration then `Player.update`) keeps the velocity inside the speed
limits, provided it was inside them before. -/
theorem claim_C7 (l : Latch) (p : PlayerS)
    (hx : |p.change_x| ≤ MAX_HORIZONTAL_MOVEMENT_SPEED)
    (hy : |p.change_y| ≤ MAX_VERTICAL_MOVEMENT_SPEED) :
    |(playerFrameStep l p).change_x| ≤ MAX_HORIZONTAL_MOVEMENT_SPEED ∧
    |(playerFrameStep l p).change_y| ≤ MAX_VERTICAL_MOVEMENT_SPEED := by
  obtain ⟨u, d, lf, r⟩ := l
  cases u <;> cases d <;> cases lf <;> cases r <;>
    simp only [playerFrameStep, Bool.and_true, Bool.and_false, Bool.true_and, Bool.false_and,
      Bool.not_true, Bool.not_false, Bool.false_eq_true, if_true, if_false,
      eq_self_iff_true]
  · exact update_bounds _ ⟨hx, hy⟩
  · exact update_bounds _ (accelerate_right_bounds _ ⟨hx, hy⟩)
  · exact update_bounds _ (accelerate_left_bounds _ ⟨hx, hy⟩)
  · exact update_bounds _ ⟨hx, hy⟩
  · exact update_bounds _ (accelerate_down_bounds _ ⟨hx, hy⟩)
  · exact update_bounds _ (accelerate_right_bounds _ (accelerate_down_bounds _ ⟨hx, hy⟩))
  · exact update_bounds _ (accelerate_left_bounds _ (accelerate_down_bounds _ ⟨hx, hy⟩))
  · exact update_bounds _ (accelerate_down_bounds _ ⟨hx, hy⟩)
  · exact update_bounds _ (accelerate_up_bounds _ ⟨hx, hy⟩)
  · exact update_bounds _ (accelerate_right_bounds _ (accelerate_up_bounds _ ⟨hx, hy⟩))
  · exact update_bounds _ (accelerate_left_bounds _ (accelerate_up_bounds _ ⟨hx, hy⟩))
  · exact update_bounds _ (accelerate_up_bounds _ ⟨hx, hy⟩)
  · exact update_bounds _ ⟨hx, hy⟩
  · exact update_bounds _ (accelerate_right_bounds _ ⟨hx, hy⟩)
  · exact update_bounds _ (accelerate_left_bounds _ ⟨hx, hy⟩)
  · exact update_bounds _ ⟨hx, hy⟩

/-- Claim C7 witness: the resting player with no keys pressed. -/
theorem claim_C7_witness :
    |(⟨50, 50, 0, 0, true⟩ : PlayerS).change_x| ≤ MAX_HORIZONTAL_MOVEMENT_SPEED ∧
    |(⟨50, 50, 0, 0, true⟩ : PlayerS).change_y| ≤ MAX_VERTICAL_MOVEMENT_SPEED ∧
    (|(playerFrameStep ⟨false, false, false, false⟩ ⟨50, 50, 0, 0, true⟩).change_x| ≤
        MAX_HORIZONTAL_MOVEMENT_SPEED ∧
      |(playerFrameStep ⟨false, false, false, false⟩ ⟨50, 50, 0, 0, true⟩).change_y| ≤
        MAX_VERTICAL_MOVEMENT_SPEED) :=
  ⟨by norm_num [MAX_HORIZONTAL_MOVEMENT_SPEED],
   by norm_num [MAX_VERTICAL_MOVEMENT_SPEED],
   claim_C7 ⟨false, false, false, false⟩ ⟨50, 50, 0, 0, true⟩
     (by norm_num [MAX_HORIZONTAL_MOVEMENT_SPEED])
     (by norm_num [MAX_VERTICAL_MOVEMENT_SPEED])⟩

theorem rat_floor_eq_floor (q : ℚ) : q.floor = ⌊q⌋ := by
  rw [Rat.floor_def', Rat.floor_def]

/-- Truncation toward zero moves a rational by strictly less than 1. -/
theorem pyInt_bounds (q : ℚ) : q - 1 < (pyInt q : ℚ) ∧ (pyInt q : ℚ) < q + 1 := by
  unfold pyInt
  split_ifs with h
  · rw [rat_floor_eq_floor]
    have h1 := Int.lt_floor_add_one q
    have h2 := Int.floor_le q
    constructor <;> linarith
  · rw [rat_floor_eq_floor, Int.floor_neg]
    have h1 := Int.le_ceil q
    have h2 := Int.ceil_lt_add_one q
    constructor <;> push_cast <;> linarith

/-- Claim C3 counterexample: player at `center_x = 20.5` (left edge 0.5,
inside the playing field) with `view_left = 0`.  After the full camera step,
including the truncation toward zero, `view_left = -589`, and the player's
left edge 0.5 *is* below `view_left + VIEWPORT_MARGIN = 1`. -/
theorem claim_C3_counterexample :
    0 ≤ (⟨20.5, 50, 0, 0, true⟩ : PlayerS).left ∧
    (⟨20.5, 50, 0, 0, true⟩ : PlayerS).right ≤ PLAYING_FIELD_WIDTH ∧
    (⟨20.5, 50, 0, 0, true⟩ : PlayerS).left <
      ((cameraStep 0 ⟨20.5, 50, 0, 0, true⟩).1 : ℚ) + VIEWPORT_MARGIN := by
  refine ⟨by norm_num [PlayerS.left, PLAYER_WIDTH],
          by norm_num [PlayerS.right, PLAYER_WIDTH, PLAYING_FIELD_WIDTH], ?_⟩
  have hs : scrollLeftRight 0 ⟨20.5, 50, 0, 0, true⟩ = -589.5 := by
    norm_num [scrollLeftRight, PlayerS.left, PlayerS.right, VIEWPORT_MARGIN,
      SCREEN_WIDTH, PLAYER_WIDTH]
  have hfl : ((589.5 : ℚ)).floor = 589 := by
    rw [rat_floor_eq_floor, Int.floor_eq_iff]
    norm_num
  have hc : (cameraStep 0 ⟨20.5, 50, 0, 0, true⟩).1 = -589 := by
    show pyInt (scrollLeftRight 0 ⟨20.5, 50, 0, 0, true⟩) = -589
    rw [hs]
    unfold pyInt
    rw [if_neg (by norm_num)]
    rw [show (-(-589.5 : ℚ)) = 589.5 from by norm_num, hfl]
  rw [hc]
  norm_num [PlayerS.left, PLAYER_WIDTH, VIEWPORT_MARGIN, SCREEN_WIDTH]

/-- Claim C3, amended: for every player position within the playing field the
corrected offset *before* truncation pins the player exactly inside the
margins, and the final `int()` truncation moves the offset by less than one,
so after the truncation both margin bounds hold with slack strictly less
than one pixel. -/
theorem claim_C3_amended (view_left : ℚ) (p : PlayerS)
    (_h1 : 0 ≤ p.left) (_h2 : p.right ≤ PLAYING_FIELD_WIDTH) :
    (scrollLeftRight view_left p + VIEWPORT_MARGIN ≤ p.left ∧
      p.right ≤ scrollLeftRight view_left p + SCREEN_WIDTH - VIEWPORT_MARGIN) ∧
    (((cameraStep view_left p).1 : ℚ) + VIEWPORT_MARGIN - 1 < p.left ∧
      p.right < ((cameraStep view_left p).1 : ℚ) + SCREEN_WIDTH - VIEWPORT_MARGIN + 1) := by
  have hpre : scrollLeftRight view_left p + VIEWPORT_MARGIN ≤ p.left ∧
      p.right ≤ scrollLeftRight view_left p + SCREEN_WIDTH - VIEWPORT_MARGIN := by
    simp only [scrollLeftRight, PlayerS.left, PlayerS.right, VIEWPORT_MARGIN,
      SCREEN_WIDTH, PLAYER_WIDTH] at *
    split_ifs with hA hB hC <;> constructor <;> linarith
  have hb := pyInt_bounds (scrollLeftRight view_left p)
  have hcast : ((cameraStep view_left p).1 : ℚ) = (pyInt (scrollLeftRight view_left p) : ℚ) :=
    rfl
  refine ⟨hpre, ?_, ?_⟩ <;> rw [hcast]
  · linarith [hpre.1, hb.2]
  · linarith [hpre.2, hb.1]

/-- Claim C3 witness for the amended statement: a player inside the field. -/
theorem claim_C3_witness :
    0 ≤ (⟨300, 50, 0, 0, true⟩ : PlayerS).left ∧
    (⟨300, 50, 0, 0, true⟩ : PlayerS).right ≤ PLAYING_FIELD_WIDTH ∧
    ((scrollLeftRight 7 ⟨300, 50, 0, 0, true⟩ + VIEWPORT_MARGIN ≤
        (⟨300, 50, 0, 0, true⟩ : PlayerS).left ∧
      (⟨300, 50, 0, 0, true⟩ : PlayerS).right ≤
        scrollLeftRight 7 ⟨300, 50, 0, 0, true⟩ + SCREEN_WIDTH - VIEWPORT_MARGIN) ∧
     (((cameraStep 7 ⟨300, 50, 0, 0, true⟩).1 : ℚ) + VIEWPORT_MARGIN - 1 <
        (⟨300, 50, 0, 0, true⟩ : PlayerS).left ∧
      (⟨300, 50, 0, 0, true⟩ : PlayerS).right <
        ((cameraStep 7 ⟨300, 50, 0, 0, true⟩).1 : ℚ) + SCREEN_WIDTH - VIEWPORT_MARGIN + 1)) :=
  ⟨by norm_num [PlayerS.left, PLAYER_WIDTH],
   by norm_num [PlayerS.right, PLAYER_WIDTH, PLAYING_FIELD_WIDTH],
   claim_C3_amended 7 ⟨300, 50, 0, 0, true⟩
     (by norm_num [PlayerS.left, PLAYER_WIDTH])
     (by norm_num [PlayerS.right, PLAYER_WIDTH, PLAYING_FIELD_WIDTH])⟩

theorem spawnLoop_count (ex ey : ℚ) (rolls : List (Int × Int)) :
    ∀ (cy cx : Int) (count : Nat) (pt : Sp) (cnt : Nat) (rest : List (Int × Int)),
      spawnLoop ex ey cy cx count rolls = some (pt, cnt, rest) → count ≤ cnt := by
  induction rolls with
  | nil =>
    intro cy cx count pt cnt rest h
    rw [spawnLoop] at h
    split_ifs at h with hz
    simp only [Option.some.injEq, Prod.mk.injEq] at h
    exact h.2.1.le
  | cons r tl ih =>
    intro cy cx count pt cnt rest h
    obtain ⟨dy, dx⟩ := r
    rw [spawnLoop] at h
    split_ifs at h with hz
    · exact Nat.le_of_succ_le (ih dy dx (count + 1) pt cnt rest h)
    · simp only [Option.some.injEq, Prod.mk.injEq] at h
      exact h.2.1.le

theorem spawnOne_count (ex ey : ℚ) (rolls : List (Int × Int)) (pt : Sp)
    (cnt : Nat) (rest : List (Int × Int))
    (h : spawnOne ex ey rolls = some (pt, cnt, rest)) : 1 ≤ cnt := by
  cases rolls with
  | nil =>
    unfold spawnOne at h
    rw [spawnLoop] at h
    simp at h
  | cons r tl =>
    obtain ⟨dy, dx⟩ := r
    unfold spawnOne at h
    rw [spawnLoop] at h
    norm_num at h
    exact spawnLoop_count ex ey tl dy dx 1 pt cnt rest h

theorem spawnBurst_length (ex ey : ℚ) (n : Nat) :
    ∀ (rolls : List (Int × Int)) (ps : List Sp) (rest : List (Int × Int)),
      spawnBurst ex ey n rolls = some (ps, rest) → n ≤ ps.length := by
  induction n with
  | zero => intro rolls ps rest h; exact Nat.zero_le _
  | succ n ih =>
    intro rolls ps rest h
    cases h1 : spawnOne ex ey rolls with
    | none =>
      simp only [spawnBurst, h1] at h
      exact Option.noConfusion h
    | some v =>
      obtain ⟨pt, cnt, rest1⟩ := v
      cases h2 : spawnBurst ex ey n rest1 with
      | none =>
        simp only [spawnBurst, h1, h2] at h
        exact Option.noConfusion h
      | some w =>
        obtain ⟨ps1, rest2⟩ := w
        simp only [spawnBurst, h1, h2, Option.some.injEq, Prod.mk.injEq] at h
        have hcnt := spawnOne_count ex ey rolls pt cnt rest1 h1
        have hlen := ih rest1 ps1 rest2 h2
        rw [← h.1]
        simp only [List.length_append, List.length_replicate]
        omega

theorem spawnForHits_length (hits : List Sp) :
    ∀ (rolls : List (Int × Int)) (ps : List Sp) (rest : List (Int × Int)),
      spawnForHits hits rolls = some (ps, rest) → 10 * hits.length ≤ ps.length := by
  induction hits with
  | nil => intro rolls ps rest h; simp
  | cons e es ih =>
    intro rolls ps rest h
    cases h1 : spawnBurst e.center_x e.center_y 10 rolls with
    | none =>
      simp only [spawnForHits, h1] at h
      exact Option.noConfusion h
    | some v =>
      obtain ⟨ps1, rest1⟩ := v
      cases h2 : spawnForHits es rest1 with
      | none =>
        simp only [spawnForHits, h1, h2] at h
        exact Option.noConfusion h
      | some w =>
        obtain ⟨qs, rest2⟩ := w
        simp only [spawnForHits, h1, h2, Option.some.injEq, Prod.mk.injEq] at h
        have hb := spawnBurst_length e.center_x e.center_y 10 rolls ps1 rest1 h1
        have he := ih rest1 qs rest2 h2
        rw [← h.1]
        simp only [List.length_append, List.length_cons]
        omega

theorem collLoop_extends (fuel : Nat) :
    ∀ (done pending enemies : List Sp) (rolls : List (Int × Int)) (bs' es' : List Sp),
      collLoop fuel done pending enemies rolls = some (bs', es') →
      ∃ t, bs' = (done ++ pending) ++ t := by
  induction fuel with
  | zero =>
    intro done pending enemies rolls bs' es' h
    exact Option.noConfusion h
  | succ fuel ih =>
    intro done pending enemies rolls bs' es' h
    cases pending with
    | nil =>
      simp only [collLoop, Option.some.injEq, Prod.mk.injEq] at h
      exact ⟨[], by simp [← h.1]⟩
    | cons b rest =>
      rw [collLoop] at h
      split_ifs at h with hE
      · obtain ⟨t, ht⟩ := ih _ _ _ _ _ _ h
        refine ⟨t, ?_⟩
        rw [ht]
        simp
      · cases hs : spawnForHits (enemies.filter (fun e => collide b e)) rolls with
        | none => rw [hs] at h; exact Option.noConfusion h
        | some pr =>
          obtain ⟨ps, rolls2⟩ := pr
          rw [hs] at h
          obtain ⟨t, ht⟩ := ih _ _ _ _ _ _ h
          refine ⟨ps ++ t, ?_⟩
          rw [ht]
          simp

theorem collLoop_subset (fuel : Nat) :
    ∀ (done pending enemies : List Sp) (rolls : List (Int × Int)) (bs' es' : List Sp),
      collLoop fuel done pending enemies rolls = some (bs', es') →
      ∀ x, x ∈ es' → x ∈ enemies := by
  induction fuel with
  | zero =>
    intro done pending enemies rolls bs' es' h
    exact Option.noConfusion h
  | succ fuel ih =>
    intro done pending enemies rolls bs' es' h
    cases pending with
    | nil =>
      simp only [collLoop, Option.some.injEq, Prod.mk.injEq] at h
      intro x hx
      rw [← h.2] at hx
      exact hx
    | cons b rest =>
      rw [collLoop] at h
      split_ifs at h with hE
      · exact ih _ _ _ _ _ _ h
      · cases hs : spawnForHits (enemies.filter (fun e => collide b e)) rolls with
        | none => rw [hs] at h; exact Option.noConfusion h
        | some pr =>
          obtain ⟨ps, rolls2⟩ := pr
          rw [hs] at h
          intro x hx
          exact (List.mem_filter.mp (ih _ _ _ _ _ _ h x hx)).1

theorem collLoop_removes (fuel : Nat) :
    ∀ (done pending enemies : List Sp) (rolls : List (Int × Int)) (bs' es' : List Sp)
      (q e : Sp), q ∈ pending → collide q e = true → e ∈ enemies →
      collLoop fuel done pending enemies rolls = some (bs', es') →
      e ∉ es' := by
  induction fuel with
  | zero =>
    intro done pending enemies rolls bs' es' q e _ _ _ h
    exact Option.noConfusion h
  | succ fuel ih =>
    intro done pending enemies rolls bs' es' q e hq hc he h
    cases pending with
    | nil => exact absurd hq (List.not_mem_nil q)
    | cons b rest =>
      rw [collLoop] at h
      split_ifs at h with hE
      · rcases List.mem_cons.mp hq with hqb | hqr
        · exfalso
          subst hqb
          have hmem : e ∈ enemies.filter (fun x => collide q x) :=
            List.mem_filter.mpr ⟨he, hc⟩
          rw [List.isEmpty_iff] at hE
          rw [hE] at hmem
          exact absurd hmem (List.not_mem_nil e)
        · exact ih _ _ _ _ _ _ q e hqr hc he h
      · cases hs : spawnForHits (enemies.filter (fun x => collide b x)) rolls with
        | none => rw [hs] at h; exact Option.noConfusion h
        | some pr =>
          obtain ⟨ps, rolls2⟩ := pr
          rw [hs] at h
          rcases List.mem_cons.mp hq with hqb | hqr
          · subst hqb
            intro hmem
            have hsub := collLoop_subset fuel _ _ _ _ _ _ h e hmem
            rw [List.mem_filter, hc] at hsub
            simp at hsub
          · by_cases hee : e ∈ enemies.filter (fun x => !collide b x)
            · exact ih _ _ _ _ _ _ q e (List.mem_append_left ps hqr) hc hee h
            · intro hmem
              exact hee (collLoop_subset fuel _ _ _ _ _ _ h e hmem)

theorem collLoop_growth (fuel : Nat) :
    ∀ (done pending enemies : List Sp) (rolls : List (Int × Int)) (bs' es' : List Sp)
      (e : Sp), e ∈ enemies → e ∉ es' →
      collLoop fuel done pending enemies rolls = some (bs', es') →
      (done ++ pending).length + 10 ≤ bs'.length := by
  induction fuel with
  | zero =>
    intro done pending enemies rolls bs' es' e _ _ h
    exact Option.noConfusion h
  | succ fuel ih =>
    intro done pending enemies rolls bs' es' e he hnot h
    cases pending with
    | nil =>
      simp only [collLoop, Option.some.injEq, Prod.mk.injEq] at h
      exact absurd (h.2 ▸ he) hnot
    | cons b rest =>
      rw [collLoop] at h
      split_ifs at h with hE
      · have hrec := ih _ _ _ _ _ _ e he hnot h
        simp only [List.length_append, List.length_cons, List.length_singleton] at hrec ⊢
        omega
      · cases hs : spawnForHits (enemies.filter (fun x => collide b x)) rolls with
        | none => rw [hs] at h; exact Option.noConfusion h
        | some pr =>
          obtain ⟨ps, rolls2⟩ := pr
          rw [hs] at h
          by_cases hee : e ∈ enemies.filter (fun x => !collide b x)
          · have hrec := ih _ _ _ _ _ _ e hee hnot h
            simp only [List.length_append, List.length_cons, List.length_singleton] at hrec ⊢
            omega
          · have hcbe : collide b e = true := by
              by_contra hcb
              rw [Bool.not_eq_true] at hcb
              exact hee (List.mem_filter.mpr ⟨he, by rw [hcb]; rfl⟩)
            have hin : e ∈ enemies.filter (fun x => collide b x) :=
              List.mem_filter.mpr ⟨he, hcbe⟩
            have hlen10 := spawnForHits_length (enemies.filter (fun x => collide b x))
              rolls ps rolls2 hs
            have hpos : 0 < (enemies.filter (fun x => collide b x)).length :=
              List.length_pos_of_mem hin
            obtain ⟨t, ht⟩ := collLoop_extends fuel _ _ _ _ _ _ h
            rw [ht]
            simp only [List.length_append, List.length_cons, List.length_singleton]
            omega

/-- Claim C1 (documents the code bug): at an enemy centred at `(100, 200)`,
with random rolls `(change_y, change_x)` equal to `(0, 0)` then `(0, 1)` for
the first particle and `(1, 1)` for each of the nine others, the burst
appends ELEVEN entries to the bullet list, not ten: the position-set and
append statements sit inside the re-roll `while` loop (lines 335-340), so the
first particle is appended once per loop-body run.  All appended entries do
sit at the enemy's position with a velocity whose components are not both
zero, and only 10 distinct particles exist (the first two entries alias one
particle). -/
theorem claim_C1_burst_eval :
    spawnBurst 100 200 10 ((0, 0) :: (0, 1) :: List.replicate 9 (1, 1)) =
      some (List.replicate 2 ⟨100, 200, 4, 4, 1, 0⟩ ++
              List.replicate 9 ⟨100, 200, 4, 4, 1, 1⟩, []) ∧
    (List.replicate 2 (⟨100, 200, 4, 4, 1, 0⟩ : Sp) ++
        List.replicate 9 (⟨100, 200, 4, 4, 1, 1⟩ : Sp)).length = 11 ∧
    ∀ q ∈ List.replicate 2 (⟨100, 200, 4, 4, 1, 0⟩ : Sp) ++
        List.replicate 9 (⟨100, 200, 4, 4, 1, 1⟩ : Sp),
      q.center_x = 100 ∧ q.center_y = 200 ∧ ¬(q.change_x = 0 ∧ q.change_y = 0) := by
  refine ⟨?_, by norm_num, ?_⟩
  · norm_num [spawnBurst, spawnOne, spawnLoop, List.replicate]
  · intro q hq
    simp only [List.mem_append, List.mem_replicate] at hq
    rcases hq with ⟨-, hq⟩ | ⟨-, hq⟩ <;> subst hq <;> norm_num

/-- Claim C2: particles are appended to the same `bullet_sprite_list` that
the collision loop iterates, so any entry `p` of the bullet list (bullet or
surviving particle) that overlaps an enemy `e` makes the collision step of
that tick remove `e` from the enemy list and append a further burst of at
least 10 entries; the bullet list is only ever extended. -/
theorem claim_C2 (fuel : Nat) (bullets enemies : List Sp)
    (rolls : List (Int × Int)) (p e : Sp) (bs' es' : List Sp)
    (hp : p ∈ bullets) (he : e ∈ enemies) (hc : collide p e = true)
    (hrun : collisionStep fuel bullets enemies rolls = some (bs', es')) :
    e ∉ es' ∧ ∃ t, bs' = bullets ++ t ∧ 10 ≤ t.length := by
  have h1 : e ∉ es' :=
    collLoop_removes fuel [] bullets enemies rolls bs' es' p e hp hc he hrun
  obtain ⟨t, ht⟩ := collLoop_extends fuel [] bullets enemies rolls bs' es' hrun
  have h2 := collLoop_growth fuel [] bullets enemies rolls bs' es' e he h1 hrun
  rw [List.nil_append] at ht h2
  refine ⟨h1, t, ht, ?_⟩
  rw [ht, List.length_append] at h2
  omega

/-- Claim C2 witness: a particle at `(100, 200)` overlapping an enemy at
`(101, 200)`; the tick removes the enemy and appends a burst of 10. -/
theorem claim_C2_witness :
    (⟨100, 200, 4, 4, 1, 1⟩ : Sp) ∈ [(⟨100, 200, 4, 4, 1, 1⟩ : Sp)] ∧
    (⟨101, 200, 20, 20, 0, 0⟩ : Sp) ∈ [(⟨101, 200, 20, 20, 0, 0⟩ : Sp)] ∧
    collide ⟨100, 200, 4, 4, 1, 1⟩ ⟨101, 200, 20, 20, 0, 0⟩ = true ∧
    collisionStep 20 [⟨100, 200, 4, 4, 1, 1⟩] [⟨101, 200, 20, 20, 0, 0⟩]
        (List.replicate 10 (1, 1)) =
      some (⟨100, 200, 4, 4, 1, 1⟩ :: List.replicate 10 ⟨101, 200, 4, 4, 1, 1⟩, []) ∧
    ((⟨101, 200, 20, 20, 0, 0⟩ : Sp) ∉ ([] : List Sp) ∧
      ∃ t, (⟨100, 200, 4, 4, 1, 1⟩ : Sp) :: List.replicate 10 ⟨101, 200, 4, 4, 1, 1⟩
            = [(⟨100, 200, 4, 4, 1, 1⟩ : Sp)] ++ t ∧ 10 ≤ t.length) :=
  ⟨List.mem_singleton.mpr rfl, List.mem_singleton.mpr rfl,
   by norm_num [collide],
   by norm_num [collisionStep, collLoop, collide, spawnForHits, spawnBurst, spawnOne,
     spawnLoop, List.replicate, List.filter],
   claim_C2 20 [⟨100, 200, 4, 4, 1, 1⟩] [⟨101, 200, 20, 20, 0, 0⟩]
     (List.replicate 10 (1, 1)) ⟨100, 200, 4, 4, 1, 1⟩ ⟨101, 200, 20, 20, 0, 0⟩
     (⟨100, 200, 4, 4, 1, 1⟩ :: List.replicate 10 ⟨101, 200, 4, 4, 1, 1⟩) []
     (List.mem_singleton.mpr rfl) (List.mem_singleton.mpr rfl)
     (by norm_num [collide])
     (by norm_num [collisionStep, collLoop, collide, spawnForHits, spawnBurst, spawnOne,
       spawnLoop, List.replicate, List.filter])⟩
